import Mathlib

/-!
Verification of the interface composition and dispatch layer of
`usbd-hid-devices` (`src/interface/mod.rs`), shallowly embedded in Lean 4.

The Rust code composes HID interfaces into a frunk HList (`HNil` / `HCons`)
and dispatches operations over it by structural recursion.  We embed the
heterogeneous list as a homogeneous `List Iface`, where `Iface` records the
observable behaviour of the `InterfaceClass` trait methods the claims are
about.  `[]` corresponds to `HNil` and `h :: t` to `HCons { head := h,
tail := t }`; every collection operation below is a direct transcription of
the corresponding `impl InterfaceHList` equations.
-/

/-- Transfer error type of the external `usb_device` crate
(`usb_device::UsbError`); the dispatch layer only moves these values
around, never inspects them. -/
inductive UsbError
  | wouldBlock
  | parseError
  | bufferOverflow
  | endpointOverflow
  | endpointMemoryOverflow
  | invalidEndpoint
  | unsupported
  | invalidState
  deriving DecidableEq, Repr

/-- Abstract state of the external `DescriptorWriter` (a sequential
descriptor byte stream); the code under verification only threads it
through calls, so its internals are irrelevant. -/
abbrev WriterSt : Type := Nat

/-- Abstract per-interface runtime state (idle rates, protocol, buffers);
the dispatch layer never inspects it, only asks the interface to reset it. -/
abbrev IfState : Type := Nat

/-- One allocated interface, i.e. one element of the HList, seen through
the `InterfaceClass` trait: its assigned interface number (`id()`, already
converted through `u8::from`), its report descriptor bytes, its runtime
state together with the behaviour of `reset(&mut self)` on that state, the
behaviour of `write_descriptors(&self, writer)` as a writer-state
transformer paired with a `usb_device::Result<()>`, and the behaviour of
`get_string(&self, index, lang_id)`. -/
structure Iface where
  id : Nat
  report_descriptor : List Nat
  state : IfState
  reset_fn : IfState → IfState
  write_fn : WriterSt → WriterSt × Except UsbError Unit
  get_string_fn : Nat → Nat → Option String

/-- `reset(&mut self)` on one interface: replace its runtime state by the
reset state; nothing else about the interface changes. -/
def Iface.reset (i : Iface) : Iface :=
  { i with state := i.reset_fn i.state }

namespace InterfaceHList

/-- `InterfaceHList::get_id`, transcribed from the `HNil` impl
(returns `None`) and the `HCons` impl
(`if id == u8::from(self.head.id()) { Some(&self.head) } else { self.tail.get_id(id) }`). -/
def get_id : List Iface → Nat → Option Iface
  | [], _ => none
  | h :: t, i => if i = h.id then some h else get_id t i

/-- `InterfaceHList::get_id_mut`: in the source its selection logic is
textually identical to `get_id` (same comparison, same recursion), differing
only in returning `&mut dyn` instead of `&dyn`. -/
def get_id_mut : List Iface → Nat → Option Iface
  | [], _ => none
  | h :: t, i => if i = h.id then some h else get_id_mut t i

/-- `InterfaceHList::reset`, transcribed from the `HNil` impl (no-op) and
the `HCons` impl (`self.head.reset(); self.tail.reset()`). -/
def reset : List Iface → List Iface
  | [] => []
  | h :: t => h.reset :: reset t

/-- `InterfaceHList::write_descriptors`, transcribed from the `HNil` impl
(`Ok(())`, writer untouched) and the `HCons` impl
(`self.head.write_descriptors(writer)?; self.tail.write_descriptors(writer)`):
the `?` operator returns the head's error unchanged, with the writer left in
whatever state the head's call put it. -/
def write_descriptors : List Iface → WriterSt → WriterSt × Except UsbError Unit
  | [], w => (w, Except.ok ())
  | h :: t, w =>
    match h.write_fn w with
    | (w1, Except.ok _) => write_descriptors t w1
    | (w1, Except.error e) => (w1, Except.error e)

/-- `InterfaceHList::get_string`, transcribed from the `HNil` impl (`None`)
and the `HCons` impl (`let s = self.head.get_string(index, lang_id);
if s.is_some() { s } else { self.tail.get_string(index, lang_id) }`). -/
def get_string : List Iface → Nat → Nat → Option String
  | [], _, _ => none
  | h :: t, index, lang_id =>
    let s := h.get_string_fn index lang_id
    if s.isSome then s else get_string t index lang_id

end InterfaceHList

/-- Modelled from the spec: `SPEC_VERSION_1_11`, the bcdHID constant of
`crate::hid_class::descriptor` (its source file is not part of the
provided sources); the spec fixes it to 0x0111. -/
def SPEC_VERSION_1_11 : Nat := 0x0111

/-- Modelled from the spec: `COUNTRY_CODE_NOT_SUPPORTED` of
`crate::hid_class::descriptor` (not part of the provided sources); the
spec fixes it to 0x00. -/
def COUNTRY_CODE_NOT_SUPPORTED : Nat := 0x00

/-- Modelled from the spec: the one-byte wire value of
`DescriptorType::Report` of `crate::hid_class::descriptor` (not part of
the provided sources); the spec fixes it to 0x22. -/
def DESCRIPTOR_TYPE_REPORT : Nat := 0x22

/-- The `HidDescriptorBody` packed struct: five logical fields, packed
little-endian into 7 bytes (`#[packed_struct(endian = "lsb", size_bytes = 7)]`). -/
structure HidDescriptorBody where
  bcd_hid : Nat
  country_code : Nat
  num_descriptors : Nat
  descriptor_type : Nat
  descriptor_length : Nat

/-- The `pack()` of `HidDescriptorBody` under the derive attributes: fields
laid out in declaration order, multi-byte fields least-significant byte
first, 7 bytes total. -/
def HidDescriptorBody.pack (b : HidDescriptorBody) : List Nat :=
  [b.bcd_hid % 256, b.bcd_hid / 256 % 256,
   b.country_code % 256,
   b.num_descriptors % 256,
   b.descriptor_type % 256,
   b.descriptor_length % 256, b.descriptor_length / 256 % 256]

/-- `InterfaceClass::hid_descriptor_body` (the default trait method):
`u16::try_from(self.report_descriptor().len())` succeeds exactly when the
length fits in 16 bits, otherwise the `.expect` panics; the panic branch is
modelled as `none`.  On success the `HidDescriptorBody` with the constant
fields and that length is packed. -/
def Iface.hid_descriptor_body (i : Iface) : Option (List Nat) :=
  if i.report_descriptor.length ≤ 65535 then
    some (HidDescriptorBody.pack
      { bcd_hid := SPEC_VERSION_1_11
        country_code := COUNTRY_CODE_NOT_SUPPORTED
        num_descriptors := 1
        descriptor_type := DESCRIPTOR_TYPE_REPORT
        descriptor_length := i.report_descriptor.length })
  else
    none

/-- `UsbAllocatable::allocate` lifted over the configuration HList,
transcribed from the `HNil` impl (`fn allocate(self, _) -> Self { self }`,
the allocator reference unused) and the `HCons` impl
(`HCons { head: self.head.allocate(usb_alloc), tail: self.tail.allocate(usb_alloc) }`).
The element allocation behaviour (the `C: UsbAllocatable` bound) is the
function argument `alloc`; the bus allocator reference is passed through
opaquely, exactly as in the source. -/
def allocate_hlist {Cfg Al A : Type} (alloc : Cfg → Al → A) :
    List Cfg → Al → List A
  | [], _ => []
  | c :: t, usb_alloc => alloc c usb_alloc :: allocate_hlist alloc t usb_alloc

/-- `WrappedInterfaceConfig<I, InnerConfig, Config>`: an inert inner
configuration plus the wrapper's own config value (the `PhantomData<I>`
type tag carries no runtime payload and is represented by the choice of
constructor function at allocation time). -/
structure WrappedInterfaceConfig (InnerConfig Config : Type) where
  inner_config : InnerConfig
  config : Config

/-- `UsbAllocatable for WrappedInterfaceConfig`:
`I::new(self.inner_config.allocate(usb_alloc), self.config)`.  The inner
configuration's allocation behaviour and the wrapper constructor
`I::new` (of the `WrappedInterface` trait) are the function arguments. -/
def WrappedInterfaceConfig.allocate {IC C Al A W : Type}
    (inner_allocate : IC → Al → A) (new : A → C → W)
    (wc : WrappedInterfaceConfig IC C) (usb_alloc : Al) : W :=
  new (inner_allocate wc.inner_config usb_alloc) wc.config

/-- Modelled from the spec: the bus allocator hands out interface numbers
one at a time (`InterfaceNumber` assignment is inside the external
`usb_device` crate and the concrete interface impls live in
`interface/raw.rs` / `interface/managed.rs`, which are not part of the
provided sources).  State: the next free interface number. -/
structure AllocState where
  next : Nat

/-- Modelled from the spec: allocating a raw (non-wrapped) interface
configuration consumes exactly one interface number from the bus allocator
and produces an interface whose `id()` is that number. -/
def raw_allocate (rd : List Nat) (rs : IfState → IfState)
    (wf : WriterSt → WriterSt × Except UsbError Unit)
    (gs : Nat → Nat → Option String) (s : AllocState) : Iface × AllocState :=
  (⟨s.next, rd, 0, rs, wf, gs⟩, ⟨s.next + 1⟩)

/-- Modelled from the spec: a wrapper interface (the `WrappedInterface`
trait) is built by `new(inner, config)`, exclusively owns the inner
interface, and delegates `id()` to it. -/
structure WIface where
  inner : Iface
  config : Nat

/-- Modelled from the spec: `WrappedInterface::new(interface, config)`. -/
def WIface.new (interface : Iface) (config : Nat) : WIface :=
  ⟨interface, config⟩

/-- Modelled from the spec: the wrapper's `id()` is the inner interface's
assigned interface number (the wrapper delegates identity to the interface
it owns). -/
def WIface.id (w : WIface) : Nat := w.inner.id

/-- `WrappedInterfaceConfig::allocate` with the bus allocator's
number-assignment state made explicit: the body
`I::new(self.inner_config.allocate(usb_alloc), self.config)` touches the
allocator only through the inner configuration's allocation. -/
def wrapped_allocate_st (inner_allocate : AllocState → Iface × AllocState)
    (config : Nat) (s : AllocState) : WIface × AllocState :=
  let p := inner_allocate s
  (WIface.new p.1 config, p.2)

/-!
Helper lemmas shared by the claim theorems, and concrete interfaces used by
the witnesses.
-/

theorem get_id_mut_eq_get_id (l : List Iface) (x : Nat) :
    InterfaceHList.get_id_mut l x = InterfaceHList.get_id l x := by
  induction l with
  | nil => rfl
  | cons h t ih =>
    simp only [InterfaceHList.get_id_mut, InterfaceHList.get_id, ih]

theorem get_id_eq_find (l : List Iface) (x : Nat) :
    InterfaceHList.get_id l x = l.find? (fun j => x == j.id) := by
  induction l with
  | nil => rfl
  | cons h t ih =>
    simp only [InterfaceHList.get_id, List.find?]
    by_cases hx : x = h.id
    · simp [hx]
    · have hb : (x == h.id) = false := beq_eq_false_iff_ne.mpr hx
      simp [hx, hb, ih]

theorem get_string_eq_findSome (l : List Iface) (index lang_id : Nat) :
    InterfaceHList.get_string l index lang_id =
      l.findSome? (fun i => i.get_string_fn index lang_id) := by
  induction l with
  | nil => rfl
  | cons h t ih =>
    simp only [InterfaceHList.get_string, List.findSome?]
    cases hs : h.get_string_fn index lang_id with
    | none => simp [hs, ih]
    | some s => simp [hs]

theorem reset_eq_map (l : List Iface) :
    InterfaceHList.reset l = l.map Iface.reset := by
  induction l with
  | nil => rfl
  | cons h t ih => simp [InterfaceHList.reset, ih]

/-- A demonstration interface: interface number 0, a 10-byte report
descriptor, no strings. -/
def iface_demo : Iface :=
  ⟨0, [1, 2, 3, 4, 5, 6, 7, 8, 9, 10], 0,
   fun s => s, fun w => (w, Except.ok ()), fun _ _ => none⟩

/-- A demonstration interface whose report descriptor is 65536 bytes long,
one more than the 16-bit length field can represent. -/
def iface_long : Iface :=
  ⟨0, List.replicate 65536 0, 0,
   fun s => s, fun w => (w, Except.ok ()), fun _ _ => none⟩

/-- Claim C2: for every interface whose report descriptor has byte length
L ≤ 65535, `hid_descriptor_body()` returns exactly 7 bytes in little-endian
layout with bcdHID = 0x0111, country code = 0x00, num descriptors = 0x01,
descriptor type = 0x22 (Report), and the 16-bit length field at offset 5
equal to L exactly. -/
theorem hid_descriptor_body_layout (i : Iface)
    (h : i.report_descriptor.length ≤ 65535) :
    i.hid_descriptor_body =
      some [0x11, 0x01, 0x00, 0x01, 0x22,
            i.report_descriptor.length % 256, i.report_descriptor.length / 256] ∧
    ([0x11, 0x01, 0x00, 0x01, 0x22,
      i.report_descriptor.length % 256,
      i.report_descriptor.length / 256] : List Nat).length = 7 ∧
    i.report_descriptor.length % 256 +
      256 * (i.report_descriptor.length / 256) = i.report_descriptor.length := by
  refine ⟨?_, rfl, Nat.mod_add_div _ _⟩
  have hd : i.report_descriptor.length / 256 < 256 := by omega
  unfold Iface.hid_descriptor_body HidDescriptorBody.pack
  rw [if_pos h]
  simp only [SPEC_VERSION_1_11, COUNTRY_CODE_NOT_SUPPORTED, DESCRIPTOR_TYPE_REPORT]
  norm_num [Nat.mod_eq_of_lt hd]

/-- Witness for C2: the demonstration interface with a 10-byte report
descriptor yields the constant header bytes and length field 10. -/
theorem hid_descriptor_body_layout_witness :
    iface_demo.hid_descriptor_body =
      some [0x11, 0x01, 0x00, 0x01, 0x22, 10, 0] :=
  (hid_descriptor_body_layout iface_demo (by decide)).1

/-- Claim C3: `hid_descriptor_body()` reaches its fault branch (the `expect`
panic on `u16::try_from`) exactly when the report descriptor length exceeds
65535; in particular not at the boundary L = 65535. -/
theorem hid_descriptor_body_fault_iff (i : Iface) :
    (i.hid_descriptor_body = none ↔ 65535 < i.report_descriptor.length) ∧
    (i.report_descriptor.length = 65535 → i.hid_descriptor_body ≠ none) := by
  unfold Iface.hid_descriptor_body
  constructor
  · by_cases h : i.report_descriptor.length ≤ 65535
    · rw [if_pos h]
      exact ⟨fun hc => absurd hc (Option.some_ne_none _), fun hc => absurd hc (by omega)⟩
    · rw [if_neg h]
      exact ⟨fun _ => by omega, fun _ => rfl⟩
  · intro hl
    rw [if_pos (le_of_eq hl)]
    simp

/-- Witness for C3: a 65536-byte report descriptor faults. -/
theorem hid_descriptor_body_fault_iff_witness :
    iface_long.hid_descriptor_body = none :=
  (hid_descriptor_body_fault_iff iface_long).1.mpr
    (by show 65535 < (List.replicate 65536 (0 : Nat)).length
        rw [List.length_replicate]
        omega)

/-- A concrete interface with number 1 and no strings. -/
def iface_a : Iface :=
  ⟨1, [], 0, fun s => s, fun w => (w, Except.ok ()), fun _ _ => none⟩

/-- A concrete interface with number 2. -/
def iface_b : Iface :=
  ⟨2, [3], 0, fun s => s + 1, fun w => (w + 1, Except.ok ()), fun _ _ => some "B"⟩

/-- A second, distinct interface that also carries number 2 (violating the
uniqueness invariant, for the head-most-match witness). -/
def iface_b2 : Iface :=
  ⟨2, [4, 4], 0, fun s => s, fun w => (w, Except.ok ()), fun _ _ => none⟩

/-- Claim C1: on a collection whose interface ids are pairwise distinct,
`get_id` (and `get_id_mut`) returns the member carrying the queried id for
every member, returns `None` for every id not carried by any member, and
returns `None` for every id on the empty collection; the scan is the
head-to-tail recursion given by the defining equations of
`InterfaceHList.get_id`. -/
theorem get_id_distinct_correct (l : List Iface)
    (hdist : (l.map Iface.id).Nodup) :
    (∀ i, i ∈ l → InterfaceHList.get_id l i.id = some i ∧
      InterfaceHList.get_id_mut l i.id = some i) ∧
    (∀ x, x ∉ l.map Iface.id → InterfaceHList.get_id l x = none ∧
      InterfaceHList.get_id_mut l x = none) ∧
    (∀ x, InterfaceHList.get_id ([] : List Iface) x = none ∧
      InterfaceHList.get_id_mut ([] : List Iface) x = none) := by
  refine ⟨?_, ?_, fun x => ⟨rfl, rfl⟩⟩
  · intro i hi
    rw [get_id_mut_eq_get_id, and_self]
    induction l with
    | nil => exact absurd hi (List.not_mem_nil i)
    | cons h t ih =>
      rw [List.map_cons, List.nodup_cons] at hdist
      rcases List.mem_cons.mp hi with rfl | hit
      · simp [InterfaceHList.get_id]
      · have hne : i.id ≠ h.id := by
          intro he
          exact hdist.1 (he ▸ List.mem_map_of_mem Iface.id hit)
        simp only [InterfaceHList.get_id, if_neg hne]
        exact ih hdist.2 hit
  · intro x hx
    rw [get_id_mut_eq_get_id, and_self]
    induction l with
    | nil => rfl
    | cons h t ih =>
      rw [List.map_cons] at hx
      have hxh : x ≠ h.id := fun he => hx (he ▸ List.mem_cons_self _ _)
      have hxt : x ∉ t.map Iface.id := fun he => hx (List.mem_cons_of_mem _ he)
      rw [List.map_cons, List.nodup_cons] at hdist
      simp only [InterfaceHList.get_id, if_neg hxh]
      exact ih hdist.2 hxt

/-- Witness for C1: on the two-element collection with ids 1 and 2, id 2
finds the second interface and id 7 finds nothing. -/
theorem get_id_distinct_correct_witness :
    InterfaceHList.get_id [iface_a, iface_b] 2 = some iface_b ∧
    InterfaceHList.get_id [iface_a, iface_b] 7 = none := by
  have hd : ([iface_a, iface_b].map Iface.id).Nodup := by
    simp [iface_a, iface_b]
  have h := get_id_distinct_correct [iface_a, iface_b] hd
  refine ⟨?_, (h.2.1 7 (by simp [iface_a, iface_b])).1⟩
  have hb : iface_b.id = 2 := rfl
  exact hb ▸ (h.1 iface_b (by simp)).1

/-- Claim C10: whenever `get_id` or `get_id_mut` returns `Some i`, the
returned interface carries the queried interface number (`i.id() = x`),
without any distinctness assumption; moreover the result is the head-most
match (`List.find?` of the id test) and `get_id_mut` selects exactly as
`get_id`. -/
theorem get_id_returns_queried_id (l : List Iface) (x : Nat) :
    (∀ i, InterfaceHList.get_id l x = some i → i.id = x) ∧
    (∀ i, InterfaceHList.get_id_mut l x = some i → i.id = x) ∧
    InterfaceHList.get_id l x = l.find? (fun j => x == j.id) ∧
    InterfaceHList.get_id_mut l x = InterfaceHList.get_id l x := by
  have hf := get_id_eq_find l x
  have hm := get_id_mut_eq_get_id l x
  have hq : ∀ i, InterfaceHList.get_id l x = some i → i.id = x := by
    intro i hi
    rw [hf] at hi
    have := List.find?_some hi
    exact (Nat.beq_eq_true_eq x i.id ▸ this).symm
  exact ⟨hq, fun i hi => hq i (hm ▸ hi), hf, hm⟩

/-- Witness for C10: with two interfaces both carrying id 2, the lookup
returns the head-most one, and it carries the queried id. -/
theorem get_id_returns_queried_id_witness :
    iface_b.id = 2 ∧
    InterfaceHList.get_id [iface_b, iface_b2] 2 = some iface_b := by
  have h := get_id_returns_queried_id [iface_b, iface_b2] 2
  have e : InterfaceHList.get_id [iface_b, iface_b2] 2 = some iface_b := by
    rw [h.2.2.1]
    rfl
  exact ⟨h.1 iface_b e, e⟩

/-- Interface A of the spec's scenario: no strings. -/
def iface_strA : Iface :=
  ⟨3, [], 0, fun s => s, fun w => (w, Except.ok ()), fun _ _ => none⟩

/-- Interface B of the spec's scenario: returns "X" for string index 5. -/
def iface_strB : Iface :=
  ⟨4, [], 0, fun s => s, fun w => (w, Except.ok ()),
   fun index _ => if index = 5 then some "X" else none⟩

/-- Interface C of the spec's scenario: returns "Y" for string index 5. -/
def iface_strC : Iface :=
  ⟨5, [], 0, fun s => s, fun w => (w, Except.ok ()),
   fun index _ => if index = 5 then some "Y" else none⟩

/-- Claim C7: `get_string(index, lang_id)` on a collection returns the
first non-`None` result scanning head-to-tail (it equals `List.findSome?`
of the element queries), a head that answers wins regardless of the tail
(later matches are never reached), and the empty collection returns
`None`. -/
theorem get_string_first_match :
    (∀ index lang_id,
      InterfaceHList.get_string ([] : List Iface) index lang_id = none) ∧
    (∀ l index lang_id, InterfaceHList.get_string l index lang_id =
      l.findSome? (fun i => i.get_string_fn index lang_id)) ∧
    (∀ h t index lang_id s, h.get_string_fn index lang_id = some s →
      InterfaceHList.get_string (h :: t) index lang_id = some s) := by
  refine ⟨fun _ _ => rfl, get_string_eq_findSome, ?_⟩
  intro h t index lang_id s hs
  simp [InterfaceHList.get_string, hs]

/-- Witness for C7: on the collection [A, B, C] where A has no strings and
B and C both answer index 5, the scan stops at B's "X". -/
theorem get_string_first_match_witness :
    InterfaceHList.get_string [iface_strA, iface_strB, iface_strC] 5 0 =
      some "X" := by
  have h1 := get_string_first_match.2.2 iface_strB [iface_strC] 5 0 "X"
    (by simp [iface_strB])
  have h0 : InterfaceHList.get_string [iface_strA, iface_strB, iface_strC] 5 0
      = InterfaceHList.get_string [iface_strB, iface_strC] 5 0 := by
    simp [InterfaceHList.get_string, iface_strA]
  rw [h0, h1]

/-- Interface that advances the writer by one and succeeds. -/
def iface_w1 : Iface :=
  ⟨6, [], 0, fun s => s, fun w => (w + 1, Except.ok ()), fun _ _ => none⟩

/-- Interface that advances the writer by ten and fails with
`BufferOverflow`. -/
def iface_wfail : Iface :=
  ⟨7, [], 0, fun s => s,
   fun w => (w + 10, Except.error UsbError.bufferOverflow), fun _ _ => none⟩

/-- Interface that advances the writer by one hundred and succeeds. -/
def iface_w3 : Iface :=
  ⟨8, [], 0, fun s => s, fun w => (w + 100, Except.ok ()), fun _ _ => none⟩

/-- Claim C4: `write_descriptors` on the empty collection returns `Ok(())`
without touching the writer; on a concatenation it runs the first part and
only continues into the second part on success, propagating the first
failure unchanged; and when an element fails, the elements after it are
never attempted (the result is the failing element's writer state and
error, for every tail). -/
theorem write_descriptors_short_circuit :
    (∀ w, InterfaceHList.write_descriptors [] w = (w, Except.ok ())) ∧
    (∀ xs ys w, InterfaceHList.write_descriptors (xs ++ ys) w =
      match InterfaceHList.write_descriptors xs w with
      | (w1, Except.ok _) => InterfaceHList.write_descriptors ys w1
      | (w1, Except.error e) => (w1, Except.error e)) ∧
    (∀ h t w w1 e, h.write_fn w = (w1, Except.error e) →
      InterfaceHList.write_descriptors (h :: t) w = (w1, Except.error e)) := by
  refine ⟨fun _ => rfl, ?_, ?_⟩
  · intro xs
    induction xs with
    | nil => intro ys w; rfl
    | cons h t ih =>
      intro ys w
      simp only [List.cons_append, InterfaceHList.write_descriptors]
      cases hw : h.write_fn w with
      | mk w1 r =>
        cases r with
        | ok u => simpa using ih ys w1
        | error e => rfl
  · intro h t w w1 e hw
    simp [InterfaceHList.write_descriptors, hw]

/-- Witness for C4: on [ok, failing, ok] starting from writer state 0, the
first element advances the writer to 1, the second fails at writer state 11
with `BufferOverflow`, and that failure is the overall result — the third
element's write (which would add 100) never happens. -/
theorem write_descriptors_short_circuit_witness :
    InterfaceHList.write_descriptors [iface_w1, iface_wfail, iface_w3] 0 =
      (11, Except.error UsbError.bufferOverflow) := by
  have h2 := write_descriptors_short_circuit.2.2 iface_wfail [iface_w3] 1 11
    UsbError.bufferOverflow (by simp [iface_wfail])
  have h0 : InterfaceHList.write_descriptors [iface_w1, iface_wfail, iface_w3] 0
      = InterfaceHList.write_descriptors [iface_wfail, iface_w3] 1 := by
    simp [InterfaceHList.write_descriptors, iface_w1]
  rw [h0, h2]

/-- Claim C8: `reset()` on a collection resets every member exactly once in
head-to-tail order: the empty collection is a no-op, the result is the
elementwise `reset` of the input (so each member is reset exactly once),
lengths agree, and the k-th element of the result is the reset of the k-th
element of the input for every position k. -/
theorem reset_all_members :
    InterfaceHList.reset [] = [] ∧
    (∀ l, InterfaceHList.reset l = l.map Iface.reset) ∧
    (∀ l, (InterfaceHList.reset l).length = l.length) ∧
    (∀ (l : List Iface) (k : Nat),
      (InterfaceHList.reset l)[k]? = (l[k]?).map Iface.reset) := by
  refine ⟨rfl, reset_eq_map, fun l => ?_, fun l k => ?_⟩
  · rw [reset_eq_map, List.length_map]
  · rw [reset_eq_map, List.getElem?_map]

/-- Claim C5: allocation is a structure-preserving map over configuration
lists: the empty configuration allocates to itself without using the
allocator, a cons allocates to the cons of the head's allocation and the
tail's allocation (so allocation is the elementwise map under the shared
allocator), and length and element order are preserved (the k-th allocated
object is the allocation of the k-th configuration, for every k). -/
theorem allocate_structure_preserving {Cfg Al A : Type} (alloc : Cfg → Al → A) :
    (∀ usb_alloc, allocate_hlist alloc [] usb_alloc = []) ∧
    (∀ c t usb_alloc, allocate_hlist alloc (c :: t) usb_alloc =
      alloc c usb_alloc :: allocate_hlist alloc t usb_alloc) ∧
    (∀ l usb_alloc, allocate_hlist alloc l usb_alloc =
      l.map (fun c => alloc c usb_alloc)) ∧
    (∀ l usb_alloc, (allocate_hlist alloc l usb_alloc).length = l.length) ∧
    (∀ (l : List Cfg) usb_alloc (k : Nat),
      (allocate_hlist alloc l usb_alloc)[k]? =
        (l[k]?).map (fun c => alloc c usb_alloc)) := by
  have hmap : ∀ (l : List Cfg) usb_alloc, allocate_hlist alloc l usb_alloc =
      l.map (fun c => alloc c usb_alloc) := by
    intro l usb_alloc
    induction l with
    | nil => rfl
    | cons c t ih => simp [allocate_hlist, ih]
  refine ⟨fun _ => rfl, fun _ _ _ => rfl, hmap, ?_, ?_⟩
  · intro l usb_alloc
    rw [hmap, List.length_map]
  · intro l usb_alloc k
    rw [hmap, List.getElem?_map]

/-- Claim C6: allocating a `WrappedInterfaceConfig` first allocates the
inner configuration and then applies the declared wrapper constructor
`I::new` to that inner allocation and the wrapper's own config; by
composition, a configuration wrapping another configuration allocates to
the outer wrapper applied to the inner wrapper applied to the innermost
allocation. -/
theorem wrapped_allocate_composes {IC C A W Al : Type}
    (inner_allocate : IC → Al → A) (new : A → C → W)
    (wc : WrappedInterfaceConfig IC C) (usb_alloc : Al) :
    WrappedInterfaceConfig.allocate inner_allocate new wc usb_alloc =
      new (inner_allocate wc.inner_config usb_alloc) wc.config ∧
    (∀ (D W2 : Type) (new2 : W → D → W2) (d : D),
      WrappedInterfaceConfig.allocate
        (fun icfg => WrappedInterfaceConfig.allocate inner_allocate new icfg)
        new2 ⟨wc, d⟩ usb_alloc =
      new2 (new (inner_allocate wc.inner_config usb_alloc) wc.config) d) :=
  ⟨rfl, fun _ _ _ _ => rfl⟩

/-- Claim C9: the wrapper produced by allocating a wrapped configuration
carries the interface number assigned to the inner allocated interface
(`id()` delegates to the inner interface), and the wrapper consumes nothing
from the bus allocator beyond what the inner allocation consumed: the
allocator state after the wrapped allocation is exactly the state after the
inner allocation; in particular, wrapping a raw-interface configuration
consumes exactly the one interface number the raw interface itself takes. -/
theorem wrapped_id_no_extra_alloc
    (inner_allocate : AllocState → Iface × AllocState)
    (config : Nat) (s : AllocState) :
    (wrapped_allocate_st inner_allocate config s).1.id =
      (inner_allocate s).1.id ∧
    (wrapped_allocate_st inner_allocate config s).2 = (inner_allocate s).2 ∧
    (∀ rd rs wf gs,
      (wrapped_allocate_st (raw_allocate rd rs wf gs) config s).1.id = s.next ∧
      (wrapped_allocate_st (raw_allocate rd rs wf gs) config s).2.next =
        s.next + 1) :=
  ⟨rfl, rfl, fun _ _ _ _ => ⟨rfl, rfl⟩⟩
